import Mathlib

/-
Verification of the rgrcat core (src/main.rs): the colour name resolver,
the rule-set parser, the line colorizer and the per-line stream driver.
Strings are embedded as lists of characters; the regex engine (an external
crate) is abstracted as a function from a haystack to its list of
non-overlapping match spans, as produced by Regex::find_iter.
-/

/- A Rust string, embedded as its list of characters. -/
abbrev RStr := List Char

/- A compiled regular expression, abstracted by its find_iter behaviour:
given a haystack, the list of (start, end) spans of the non-overlapping
leftmost matches. -/
abbrev RegexFn := RStr → List (Nat × Nat)

/-- Embeds get_colour (src/main.rs lines 147-213): the colour-name lookup
table, falling back to the default reset sequence for unknown names.
Note the Rust literal "\007" has no octal meaning: it is the NUL escape
\0 followed by the two literal characters 0 and 7. -/
def get_colour (colour_name : RStr) : RStr :=
  if colour_name = "none".data then "".data
  else if colour_name = "default".data then "\x1b[0m".data
  else if colour_name = "bold".data then "\x1b[1m".data
  else if colour_name = "underline".data then "\x1b[4m".data
  else if colour_name = "blink".data then "\x1b[5m".data
  else if colour_name = "reverse".data then "\x1b[7m".data
  else if colour_name = "concealed".data then "\x1b[8m".data
  else if colour_name = "black".data then "\x1b[30m".data
  else if colour_name = "red".data then "\x1b[31m".data
  else if colour_name = "green".data then "\x1b[32m".data
  else if colour_name = "yellow".data then "\x1b[33m".data
  else if colour_name = "blue".data then "\x1b[34m".data
  else if colour_name = "magenta".data then "\x1b[35m".data
  else if colour_name = "cyan".data then "\x1b[36m".data
  else if colour_name = "white".data then "\x1b[37m".data
  else if colour_name = "on_black".data then "\x1b[40m".data
  else if colour_name = "on_red".data then "\x1b[41m".data
  else if colour_name = "on_green".data then "\x1b[42m".data
  else if colour_name = "on_yellow".data then "\x1b[43m".data
  else if colour_name = "on_blue".data then "\x1b[44m".data
  else if colour_name = "on_magenta".data then "\x1b[45m".data
  else if colour_name = "on_cyan".data then "\x1b[46m".data
  else if colour_name = "on_white".data then "\x1b[47m".data
  else if colour_name = "beep".data then "\x0007".data
  else if colour_name = "previous".data then "prev".data
  else if colour_name = "unchanged".data then "unchanged".data
  else if colour_name = "dark".data then "\x1b[2m".data
  else if colour_name = "italic".data then "\x1b[3m".data
  else if colour_name = "rapidblink".data then "\x1b[6m".data
  else if colour_name = "strikethrough".data then "\x1b[9m".data
  else if colour_name = "bright_black".data then "\x1b[30;90m".data
  else if colour_name = "bright_red".data then "\x1b[31;91m".data
  else if colour_name = "bright_green".data then "\x1b[32;92m".data
  else if colour_name = "bright_yellow".data then "\x1b[33;93m".data
  else if colour_name = "bright_blue".data then "\x1b[34;94m".data
  else if colour_name = "bright_magenta".data then "\x1b[35;95m".data
  else if colour_name = "bright_cyan".data then "\x1b[36;96m".data
  else if colour_name = "bright_white".data then "\x1b[37;97m".data
  else if colour_name = "on_bright_black".data then "\x1b[40;100m".data
  else if colour_name = "on_bright_red".data then "\x1b[41;101m".data
  else if colour_name = "on_bright_green".data then "\x1b[42;102m".data
  else if colour_name = "on_bright_yellow".data then "\x1b[43;103m".data
  else if colour_name = "on_bright_blue".data then "\x1b[44;104m".data
  else if colour_name = "on_bright_magenta".data then "\x1b[45;105m".data
  else if colour_name = "on_bright_cyan".data then "\x1b[46;106m".data
  else if colour_name = "on_bright_white".data then "\x1b[47;107m".data
  else "\x1b[0m".data

/-- Splitting a string at every character satisfying p, keeping empty
pieces, as Rust str::split does; the result is never empty. -/
def splitPred (p : Char → Bool) : RStr → List RStr
  | [] => [[]]
  | c :: rest =>
    match splitPred p rest with
    | [] => [[]]
    | h :: t => if p c then [] :: h :: t else (c :: h) :: t

/-- Rust str::split on a single separator character. -/
def splitChar (sep : Char) (s : RStr) : List RStr :=
  splitPred (fun c => c = sep) s

/-- Embeds get_colour_list (src/main.rs lines 216-229): split the raw value
on commas, split each group on the space character, resolve every
non-empty token, pushing the results into one flat list. -/
def get_colour_list (raw_colour : RStr) : List RStr :=
  (splitChar ',' raw_colour).foldl (fun acc colours =>
    (splitChar ' ' colours).foldl (fun acc2 colour =>
      if colour = [] then acc2 else acc2 ++ [get_colour colour]) acc) []

/-- Embeds the ColourConfig struct (src/main.rs lines 12-20). -/
structure ColourConfig where
  regexp : RStr
  colours : List RStr
  count : RStr
  command : RStr
  skip : RStr
  replace : RStr
  concat : RStr
deriving DecidableEq, Repr

/-- Embeds ColourConfig::new (src/main.rs lines 233-243): the default rule. -/
def ColourConfig.new : ColourConfig where
  regexp := "".data
  colours := ["".data]
  count := "more".data
  command := "".data
  skip := "".data
  replace := "".data
  concat := "".data

/-- One step of ColourConfig::insert_content (src/main.rs lines 246-266):
assign one (key, value) pair to the matching field; an unrecognized key
only logs a diagnostic. -/
def ColourConfig.insert_one (cfg : ColourConfig) (item : RStr × RStr) : ColourConfig :=
  if item.1 = "regexp".data then { cfg with regexp := item.2 }
  else if item.1 = "colours".data then { cfg with colours := get_colour_list item.2 }
  else if item.1 = "count".data then { cfg with count := item.2 }
  else if item.1 = "command".data then { cfg with command := item.2 }
  else if item.1 = "skip".data then { cfg with skip := item.2 }
  else if item.1 = "replace".data then { cfg with replace := item.2 }
  else if item.1 = "concat".data then { cfg with concat := item.2 }
  else cfg

/-- Embeds ColourConfig::insert_content (src/main.rs lines 246-266). -/
def ColourConfig.insert_content (cfg : ColourConfig) (content : List (RStr × RStr)) : ColourConfig :=
  content.foldl ColourConfig.insert_one cfg

/-- Embeds is_config_split_line (src/main.rs lines 74-87): a non-comment,
non-blank line whose first character is not an ASCII letter. -/
def is_config_split_line : RStr → Bool
  | [] => false
  | c :: _ => if c = '#' then false else !c.isAlpha

/-- Rust line.splitn(2, "=") when it yields two pieces: split at the first
equals sign, none when the line has no equals sign. -/
def splitn2Eq : RStr → Option (RStr × RStr)
  | [] => none
  | c :: rest =>
    if c = '=' then some ([], rest)
    else
      match splitn2Eq rest with
      | none => none
      | some (k, v) => some (c :: k, v)

/-- Embeds parse_config_line (src/main.rs lines 90-114): comments and blank
lines yield nothing; a line without an equals sign is a dropped warning;
a key beginning with colo is normalized to colours. -/
def parse_config_line : RStr → Option (RStr × RStr)
  | [] => none
  | c :: rest =>
    if c = '#' then none
    else
      match splitn2Eq (c :: rest) with
      | none => none
      | some (k, v) =>
        if "colo".data.isPrefixOf k then some ("colours".data, v) else some (k, v)

/-- The loop of parse_config (src/main.rs lines 117-144), carrying the
buffer of pending (key, value) pairs; the final buffer is always
finalized into one trailing rule. -/
def parse_config_aux : List RStr → List (RStr × RStr) → List ColourConfig
  | [], key_val_list => [ColourConfig.new.insert_content key_val_list]
  | line :: rest, key_val_list =>
    if is_config_split_line line then
      ColourConfig.new.insert_content key_val_list :: parse_config_aux rest []
    else
      match parse_config_line line with
      | none => parse_config_aux rest key_val_list
      | some key_val => parse_config_aux rest (key_val_list ++ [key_val])

/-- Embeds parse_config (src/main.rs lines 117-144) on the list of lines of
the configuration text (file I/O abstracted away). -/
def parse_config (lines : List RStr) : List ColourConfig :=
  parse_config_aux lines []

/-- Embeds get_colour_str (src/main.rs lines 270-276): colour, then the
content, then the default reset sequence. -/
def get_colour_str (content : RStr) (colour : RStr) : RStr :=
  colour ++ content ++ get_colour "default".data

/-- The default reset sequence inserted after every character by an
empty-needle replacement: Rust "abc".replace("", to) = to a to b to c to,
and interAfter to "abc" is its part after the leading to. -/
def interAfter (rep : RStr) : RStr → RStr
  | [] => []
  | c :: rest => c :: rep ++ interAfter rep rest

/-- Fuelled scan for Rust str::replace with the non-empty needle
n0 :: ntail: at each position, a needle occurrence is replaced by rep and
skipped, otherwise one character is copied; fuel at least the length of
the string makes the fuel bound irrelevant. -/
def rustReplaceAux (n0 : Char) (ntail rep : RStr) : Nat → RStr → RStr
  | _, [] => []
  | 0, s => s
  | fuel + 1, c :: rest =>
    if (n0 :: ntail).isPrefixOf (c :: rest) then
      rep ++ rustReplaceAux n0 ntail rep fuel (rest.drop ntail.length)
    else
      c :: rustReplaceAux n0 ntail rep fuel rest

/-- Rust String::replace: replaces every non-overlapping leftmost
occurrence of needle in s by rep; an empty needle matches at every
character boundary, including both ends. -/
def rustReplace (s needle rep : RStr) : RStr :=
  match needle with
  | [] => rep ++ interAfter rep s
  | n0 :: ntail => rustReplaceAux n0 ntail rep s.length s

/-- The byte-span slice line[m.start()..m.end()], at character granularity. -/
def sliceSpan (line : RStr) (m : Nat × Nat) : RStr :=
  (line.drop m.1).take (m.2 - m.1)

/-- Embeds get_colour_line_by_re (src/main.rs lines 279-288). Note the
accumulator is unused, exactly as in the source: every iteration assigns
result = line.replace(match_str, colour_str) starting again from the
original line argument. -/
def get_colour_line_by_re (line : RStr) (colour : RStr) (re : RegexFn) : RStr :=
  (re line).foldl (fun _result m =>
    rustReplace line (sliceSpan line m) (get_colour_str (sliceSpan line m) colour)) line

/-- One iteration of the loop of get_output_line_by_config (src/main.rs
lines 293-305); none models an index panic on colours[0]. In the block
branch the source computes get_colour_str(line, &config.colours[0]) and
discards the value, so only the bounds check on colours[0] is observable;
in the unblock branch the discarded value reads no rule field at all. -/
def apply_config (compile : RStr → RegexFn) (result : RStr) (config : ColourConfig) :
    Option RStr :=
  if config.count = "block".data then
    config.colours.head?.map (fun _ => result)
  else if config.count = "unblock".data then
    some result
  else
    if "unchanged".data ∈ config.colours then some result
    else
      config.colours.head?.map (fun colour0 =>
        get_colour_line_by_re result colour0 (compile config.regexp))

/-- Embeds get_output_line_by_config (src/main.rs lines 291-308): apply the
rules in order, each rule rewriting the running result; none models an
index panic on colours[0] inside some rule. -/
def get_output_line_by_config (compile : RStr → RegexFn) :
    RStr → List ColourConfig → Option RStr
  | result, [] => some result
  | result, config :: rest =>
    match apply_config compile result config with
    | none => none
    | some r => get_output_line_by_config compile r rest

/-- Embeds is_skip_input_line (src/main.rs lines 311-318). -/
def is_skip_input_line (config_list : List ColourConfig) : Bool :=
  config_list.any (fun config =>
    config.skip == "yes".data || config.skip == "1".data || config.skip == "true".data)

/-- The Unicode White_Space property, as tested by Rust char::is_whitespace. -/
def isRustWhitespace (c : Char) : Bool :=
  ['\x09', '\x0a', '\x0b', '\x0c', '\x0d', '\x20', '\x85', '\xa0',
   '\u1680', '\u2000', '\u2001', '\u2002', '\u2003', '\u2004', '\u2005',
   '\u2006', '\u2007', '\u2008', '\u2009', '\u200a', '\u2028', '\u2029',
   '\u202f', '\u205f', '\u3000'].contains c

/-- Rust str::trim_end: removes every trailing whitespace character. -/
def trimEnd (s : RStr) : RStr :=
  (s.reverse.dropWhile isRustWhitespace).reverse

/-- One iteration of the loop of process_stdio (src/main.rs lines 321-344)
for one raw input line (terminator included, as read_line leaves it).
none models a panic inside the colorizer; some none models a suppressed
line; some (some out) models out being printed. -/
def process_line (compile : RStr → RegexFn) (input : RStr)
    (config_list : List ColourConfig) : Option (Option RStr) :=
  if is_skip_input_line config_list then some none
  else (get_output_line_by_config compile (trimEnd input) config_list).map some

/-- Modelled from the regex crate, an external dependency: find_iter of the
compiled empty pattern matches the empty string at every position of the
haystack, both ends included. -/
def empty_pattern_matches : RegexFn :=
  fun s => (List.range (s.length + 1)).map (fun i => (i, i))

/-- Modelled from the regex crate, an external dependency: find_iter of the
compiled character class matching the letters a and b yields one
single-character span per occurrence of either letter. -/
def charclass_ab_matches : RegexFn :=
  fun s => (List.range s.length).filterMap (fun i =>
    match s.drop i with
    | c :: _ => if c = 'a' ∨ c = 'b' then some (i, i + 1) else none
    | [] => none)

/-- Replacement of only the first occurrence of needle, used to state the
spec side of refinement comparisons. -/
def replaceFirst (s needle rep : RStr) : RStr :=
  match s with
  | [] => []
  | c :: rest =>
    if needle.isPrefixOf (c :: rest) then rep ++ (c :: rest).drop needle.length
    else c :: replaceFirst rest needle rep

/-- The Line Colorizer pattern step as the spec words it, for refinement
comparison with get_colour_line_by_re: each match's wrapped substring
replaces the first textual occurrence of the matched substring in the
current (already partially rewritten) line. -/
def colour_line_spec_model (line : RStr) (colour : RStr) (re : RegexFn) : RStr :=
  (re line).foldl (fun result m =>
    replaceFirst result (sliceSpan line m) (get_colour_str (sliceSpan line m) colour)) line

/-- Colour-list parsing as the spec words it, for refinement comparison
with get_colour_list: groups are split on whitespace, not only on the
space character. -/
def get_colour_list_spec_model (raw_colour : RStr) : List RStr :=
  ((splitChar ',' raw_colour).map (fun g =>
    ((splitPred isRustWhitespace g).filter (fun t => !t.isEmpty)).map get_colour)).flatten

/-- A left fold whose body ignores the accumulator returns the image of the
last element, or the initial value on an empty list. -/
theorem foldl_ignore_acc {α β : Type} (g : α → β) (l : List α) (init : β) :
    l.foldl (fun _ x => g x) init = (l.getLast?).elim init g := by
  induction l generalizing init with
  | nil => rfl
  | cons x xs ih =>
    rw [List.foldl_cons, ih]
    cases xs with
    | nil => rfl
    | cons y ys =>
      rw [List.getLast?_cons_cons]
      cases hg : (y :: ys).getLast? with
      | none => simp at hg
      | some a => rfl

/-- Length of the interleaving used by an empty-needle replacement. -/
theorem interAfter_length (rep : RStr) :
    ∀ s : RStr, (interAfter rep s).length = s.length * (rep.length + 1) := by
  intro s
  induction s with
  | nil => simp [interAfter]
  | cons c rest ih =>
    simp [interAfter, ih]
    ring

/-- On the empty pattern, get_colour_line_by_re collapses to one empty-needle
replacement: every iteration of its loop overwrites the previous result
with the same value. -/
theorem colour_line_empty_pattern (line colour : RStr) :
    get_colour_line_by_re line colour empty_pattern_matches =
      rustReplace line [] (get_colour_str [] colour) := by
  unfold get_colour_line_by_re
  rw [foldl_ignore_acc]
  have hlast : (empty_pattern_matches line).getLast? =
      some (line.length, line.length) := by
    unfold empty_pattern_matches
    rw [List.getLast?_map, List.range_succ, List.getLast?_concat]
    rfl
  rw [hlast]
  have hslice : sliceSpan line (line.length, line.length) = [] := by
    unfold sliceSpan
    simp
  show rustReplace line (sliceSpan line (line.length, line.length))
      (get_colour_str (sliceSpan line (line.length, line.length)) colour) =
    rustReplace line [] (get_colour_str [] colour)
  rw [hslice]

/-- The parser emits one rule per separator line plus the trailing rule. -/
theorem parse_config_aux_length :
    ∀ (lines : List RStr) (buf : List (RStr × RStr)),
      (parse_config_aux lines buf).length =
        lines.countP (fun l => is_config_split_line l) + 1 := by
  intro lines
  induction lines with
  | nil =>
    intro buf
    simp [parse_config_aux]
  | cons l ls ih =>
    intro buf
    cases h : is_config_split_line l with
    | true =>
      simp [parse_config_aux, h, List.countP_cons, ih]
    | false =>
      cases hp : parse_config_line l <;>
        simp [parse_config_aux, h, hp, List.countP_cons, ih]

/-- Comment and blank lines neither split blocks nor contribute pairs, so
they leave the parser state untouched. -/
theorem parse_config_aux_all_comments :
    ∀ (lines : List RStr),
      (∀ l ∈ lines, l.head? = some '#' ∨ l = []) →
      ∀ buf, parse_config_aux lines buf = [ColourConfig.new.insert_content buf] := by
  intro lines
  induction lines with
  | nil =>
    intro _ buf
    rfl
  | cons l ls ih =>
    intro h buf
    have hrest : ∀ x ∈ ls, x.head? = some '#' ∨ x = [] :=
      fun x hx => h x (List.mem_cons_of_mem l hx)
    rcases h l (List.mem_cons_self l ls) with hh | hh
    · cases l with
      | nil => simp at hh
      | cons c rest =>
        have hc : c = '#' := by simpa using hh
        subst hc
        simp [parse_config_aux, is_config_split_line, parse_config_line]
        exact ih hrest buf
    · subst hh
      simp [parse_config_aux, is_config_split_line, parse_config_line]
      exact ih hrest buf

/-- The inner token loop of get_colour_list appends the resolved non-empty
tokens to the running list. -/
theorem colour_fold_inner :
    ∀ (toks : List RStr) (acc : List RStr),
      toks.foldl (fun acc2 colour =>
        if colour = [] then acc2 else acc2 ++ [get_colour colour]) acc =
      acc ++ (toks.filter (fun t => !t.isEmpty)).map get_colour := by
  intro toks
  induction toks with
  | nil =>
    intro acc
    simp
  | cons t ts ih =>
    intro acc
    by_cases h : t = []
    · subst h
      simp [ih]
    · rw [List.foldl_cons, if_neg h, ih]
      have hne : (!t.isEmpty) = true := by
        simp [List.isEmpty_iff]
        exact h
      simp [List.filter_cons, hne]

/-- The outer group loop of get_colour_list appends each group's resolved
tokens in order. -/
theorem colour_fold_outer :
    ∀ (gs : List RStr) (acc : List RStr),
      gs.foldl (fun acc colours =>
        (splitChar ' ' colours).foldl (fun acc2 colour =>
          if colour = [] then acc2 else acc2 ++ [get_colour colour]) acc) acc =
      acc ++ (gs.map (fun g =>
        ((splitChar ' ' g).filter (fun t => !t.isEmpty)).map get_colour)).flatten := by
  intro gs
  induction gs with
  | nil =>
    intro acc
    simp
  | cons g gs ih =>
    intro acc
    rw [List.foldl_cons, colour_fold_inner, ih]
    simp

/-- get_colour_list is the flattening of per-group token resolution. -/
theorem get_colour_list_eq_flatten (raw : RStr) :
    get_colour_list raw =
      ((splitChar ',' raw).map (fun g =>
        ((splitChar ' ' g).filter (fun t => !t.isEmpty)).map get_colour)).flatten := by
  unfold get_colour_list
  rw [colour_fold_outer]
  simp

/-- The head of dropWhile never satisfies the dropped predicate. -/
theorem head?_dropWhile_false (p : Char → Bool) :
    ∀ (l : RStr) (c : Char), (l.dropWhile p).head? = some c → p c = false := by
  intro l
  induction l with
  | nil =>
    intro c h
    simp [List.dropWhile] at h
  | cons x xs ih =>
    intro c h
    rw [List.dropWhile_cons] at h
    by_cases hx : p x = true
    · rw [if_pos hx] at h
      exact ih c h
    · rw [if_neg hx] at h
      simp at h
      subst h
      simpa using hx

/-- C1: the claim fails on the code and the code contradicts the intended
block semantics: in the block branch of get_output_line_by_config the
wrapped line get_colour_str(line, colours[0]) is computed and discarded,
so a rule with count block never changes the line at all; the following
rules see the unchanged line, not a colorized one. -/
theorem block_rules_no_effect (compile : RStr → RegexFn) (line : RStr)
    (config_list : List ColourConfig) :
    (∀ config ∈ config_list,
      config.count = "block".data ∧ config.colours ≠ []) →
    get_output_line_by_config compile line config_list = some line := by
  induction config_list with
  | nil =>
    intro _
    rfl
  | cons c cs ih =>
    intro h
    obtain ⟨hc, hcol⟩ := h c (List.mem_cons_self c cs)
    have hstep : apply_config compile line c = some line := by
      unfold apply_config
      rw [if_pos hc]
      cases hl : c.colours with
      | nil => exact absurd hl hcol
      | cons a as => rfl
    unfold get_output_line_by_config
    rw [hstep]
    exact ih (fun cfg hcfg => h cfg (List.mem_cons_of_mem c hcfg))

/-- C1 witness: a single block rule with colour red leaves the line hello
unchanged instead of wrapping it. -/
theorem block_rules_no_effect_witness :
    get_output_line_by_config (fun _ => empty_pattern_matches) "hello".data
      [{ ColourConfig.new with count := "block".data, colours := ["\x1b[31m".data] }] =
      some "hello".data :=
  block_rules_no_effect _ _ _ (by decide)

/-- C2: the claim fails on the code and the code contradicts the intended
unblock semantics: in the unblock branch of get_output_line_by_config the
value get_colour_str(line, default) is computed and discarded, so a rule
with count unblock never changes the line. -/
theorem unblock_rules_no_effect (compile : RStr → RegexFn) (line : RStr)
    (config_list : List ColourConfig) :
    (∀ config ∈ config_list, config.count = "unblock".data) →
    get_output_line_by_config compile line config_list = some line := by
  induction config_list with
  | nil =>
    intro _
    rfl
  | cons c cs ih =>
    intro h
    have hc := h c (List.mem_cons_self c cs)
    have hstep : apply_config compile line c = some line := by
      unfold apply_config
      rw [hc, if_neg (by decide), if_pos rfl]
    unfold get_output_line_by_config
    rw [hstep]
    exact ih (fun cfg hcfg => h cfg (List.mem_cons_of_mem c hcfg))

/-- C2 witness: a single unblock rule leaves the line hello unchanged
instead of wrapping it in the reset sequence. -/
theorem unblock_rules_no_effect_witness :
    get_output_line_by_config (fun _ => empty_pattern_matches) "hello".data
      [{ ColourConfig.new with count := "unblock".data }] = some "hello".data :=
  unblock_rules_no_effect _ _ _ (by decide)

/-- C4: if any rule's skip value is exactly yes, 1 or true, the per-line
driver step suppresses the line (no output), whatever the other rules
hold. -/
theorem skip_suppresses_line (compile : RStr → RegexFn) (input : RStr)
    (config_list : List ColourConfig) :
    (∃ config ∈ config_list,
      config.skip = "yes".data ∨ config.skip = "1".data ∨ config.skip = "true".data) →
    process_line compile input config_list = some none := by
  intro h
  have hskip : is_skip_input_line config_list = true := by
    unfold is_skip_input_line
    rw [List.any_eq_true]
    obtain ⟨c, hc, hor⟩ := h
    refine ⟨c, hc, ?_⟩
    rcases hor with h1 | h1 | h1 <;> simp [h1]
  unfold process_line
  rw [if_pos hskip]

/-- C4 witness: a rule set holding a skip=yes rule and an ordinary pattern
rule suppresses a concrete input line. -/
theorem skip_suppresses_line_witness :
    process_line (fun _ => empty_pattern_matches) "ERROR: disk full\n".data
      [{ ColourConfig.new with skip := "yes".data }, ColourConfig.new] = some none :=
  skip_suppresses_line _ _ _ (by decide)

/-- C5: parsing always succeeds with one rule per block-separator line plus
the trailing rule, so the result is never empty; an empty or all-comment
configuration yields exactly the single default rule. -/
theorem parse_config_length_and_defaults (lines : List RStr) :
    (parse_config lines).length =
      lines.countP (fun l => is_config_split_line l) + 1 ∧
    ((∀ l ∈ lines, l.head? = some '#' ∨ l = []) →
      parse_config lines = [ColourConfig.new]) := by
  constructor
  · exact parse_config_aux_length lines []
  · intro h
    have := parse_config_aux_all_comments lines h []
    simpa [parse_config, ColourConfig.insert_content] using this

/-- C5 witness: a configuration of one comment line and one blank line has
no separators and parses to exactly the default rule. -/
theorem parse_config_length_and_defaults_witness :
    (parse_config ["# note".data, "".data]).length =
      (["# note".data, "".data].countP (fun l => is_config_split_line l)) + 1 ∧
    parse_config ["# note".data, "".data] = [ColourConfig.new] :=
  ⟨(parse_config_length_and_defaults _).1,
   (parse_config_length_and_defaults _).2 (by decide)⟩

/-- C3 counterexample: on the line ab with a pattern matching each of a and
b, the code (replace all occurrences, restarting from the original line
each match) disagrees with the claim (replace the first occurrence in the
current line, each replacement feeding the next match). -/
theorem colour_line_replace_counterexample :
    get_colour_line_by_re "ab".data "\x1b[31m".data charclass_ab_matches ≠
      colour_line_spec_model "ab".data "\x1b[31m".data charclass_ab_matches := by
  decide

/-- C3 amended: for each match the code wraps the matched substring in
colours[0] plus the reset and replaces every occurrence of that substring
in the original line, overwriting the previous result; hence the output
is the original line with all occurrences of the last match's substring
replaced by its wrapped form, and a line without matches is unchanged. -/
theorem colour_line_last_match_only (line colour : RStr) (re : RegexFn) :
    get_colour_line_by_re line colour re =
      ((re line).getLast?).elim line (fun m =>
        rustReplace line (sliceSpan line m)
          (get_colour_str (sliceSpan line m) colour)) := by
  unfold get_colour_line_by_re
  exact foldl_ignore_acc
    (fun m => rustReplace line (sliceSpan line m) (get_colour_str (sliceSpan line m) colour))
    (re line) line

/-- C6 counterexample: a token list separated by a tab is not split: the
whole tab-joined word is resolved as one unknown name, unlike the spec's
whitespace splitting. -/
theorem get_colour_list_whitespace_counterexample :
    get_colour_list "red\tbold".data ≠ get_colour_list_spec_model "red\tbold".data := by
  decide

/-- C6 amended: the raw value is split on commas into groups and each group
on the space character (only) into tokens; non-empty tokens are resolved
in original order and flattened, empty tokens dropped; the worked example
of the claim holds. -/
theorem get_colour_list_flatten_and_example :
    (∀ raw : RStr, get_colour_list raw =
      ((splitChar ',' raw).map (fun g =>
        ((splitChar ' ' g).filter (fun t => !t.isEmpty)).map get_colour)).flatten) ∧
    get_colour_list "default,blink ,yellow".data =
      ["\x1b[0m".data, "\x1b[5m".data, "\x1b[33m".data] :=
  ⟨get_colour_list_eq_flatten, by decide⟩

/-- C7: the claim matches the intent but the code misses it: the Rust
literal for beep is \0 followed by the characters 0 and 7, not the bell
control character 0x07, because Rust has no octal escapes. -/
theorem get_colour_beep_not_bell :
    get_colour "beep".data = ['\x00', '0', '7'] ∧
    get_colour "beep".data ≠ ['\x07'] := by
  decide

/-- C8 counterexample: for the raw input line a-space-newline, trim_end
(the trimming the driver applies before calling the colorizer) removes
the trailing space together with the terminator, contradicting the
claim's preservation of trailing spaces. -/
theorem trim_end_counterexample :
    trimEnd "a \n".data = "a".data ∧ trimEnd "a \n".data ≠ "a ".data := by
  decide

/-- C8 amended: the driver trims every trailing whitespace character (Rust
trim_end), not only the line terminator: the removed suffix is all
whitespace and the remaining prefix, the colorizer's input, ends in a
non-whitespace character. -/
theorem trim_end_amended (input : RStr) :
    trimEnd input ++ (input.reverse.takeWhile isRustWhitespace).reverse = input ∧
    (input.reverse.takeWhile isRustWhitespace).reverse.all isRustWhitespace = true ∧
    (trimEnd input).getLast?.elim True (fun c => isRustWhitespace c = false) := by
  refine ⟨?_, ?_, ?_⟩
  · unfold trimEnd
    rw [← List.reverse_append, List.takeWhile_append_dropWhile, List.reverse_reverse]
  · rw [List.all_eq_true]
    intro c hc
    rw [List.mem_reverse] at hc
    exact List.mem_takeWhile_imp hc
  · unfold trimEnd
    cases hg : (List.dropWhile isRustWhitespace input.reverse).reverse.getLast? with
    | none => exact trivial
    | some c =>
      rw [List.getLast?_reverse] at hg
      exact head?_dropWhile_false isRustWhitespace input.reverse c hg

/-- C8 witness: the amended statement at the concrete raw line b-space-tab-
newline. -/
theorem trim_end_amended_witness :
    trimEnd "b \t\n".data ++
      ("b \t\n".data.reverse.takeWhile isRustWhitespace).reverse = "b \t\n".data ∧
    ("b \t\n".data.reverse.takeWhile isRustWhitespace).reverse.all isRustWhitespace = true ∧
    (trimEnd "b \t\n".data).getLast?.elim True (fun c => isRustWhitespace c = false) :=
  trim_end_amended "b \t\n".data

/-- C9 counterexample: the configured value colours= (no token) resolves to
the empty colour list, and processing any line against the parsed rule
set hits the out-of-bounds colours[0] access, modelled as none. -/
theorem empty_colours_value_panics :
    get_colour_list "".data = [] ∧
    get_output_line_by_config (fun _ => empty_pattern_matches) "x".data
      (parse_config ["colours=".data]) = none := by
  decide

/-- C9 amended: the default rule holds the single empty-string colour, and
a configured colours value yields a non-empty list exactly when it holds
at least one non-empty token; a tokenless value yields the empty list,
for which the colours[0] access during line processing is out of bounds. -/
theorem colours_nonempty_iff_tokens :
    ColourConfig.new.colours = ["".data] ∧
    ∀ raw : RStr, (get_colour_list raw = [] ↔
      ((splitChar ',' raw).all (fun g =>
        (splitChar ' ' g).all (fun t => t.isEmpty))) = true) := by
  constructor
  · rfl
  · intro raw
    rw [get_colour_list_eq_flatten]
    simp [List.flatten_eq_nil_iff, List.all_eq_true, List.filter_eq_nil_iff,
      List.isEmpty_iff]

/-- C9 witness: the amended equivalence at the concrete colours value red,
which yields one resolved code. -/
theorem colours_nonempty_iff_tokens_witness :
    ColourConfig.new.colours = ["".data] ∧
    (get_colour_list "red".data = [] ↔
      ((splitChar ',' "red".data).all (fun g =>
        (splitChar ' ' g).all (fun t => t.isEmpty))) = true) :=
  ⟨colours_nonempty_iff_tokens.1, colours_nonempty_iff_tokens.2 "red".data⟩

/-- C10: under the default rule alone (empty pattern, count more, single
empty colour) with the empty pattern compiling to the match-everywhere
regex, every line comes out with the reset sequence inserted at every
character boundary, so no line is left unchanged; the empty line becomes
exactly the reset sequence. -/
theorem default_rule_not_identity (compile : RStr → RegexFn)
    (h : compile "".data = empty_pattern_matches) (line : RStr) :
    get_output_line_by_config compile line [ColourConfig.new] =
      some ("\x1b[0m".data ++ interAfter "\x1b[0m".data line) ∧
    "\x1b[0m".data ++ interAfter "\x1b[0m".data line ≠ line := by
  constructor
  · have hstep : apply_config compile line ColourConfig.new =
        some (get_colour_line_by_re line "".data (compile "".data)) := by
      unfold apply_config ColourConfig.new
      rw [if_neg (by decide), if_neg (by decide), if_neg (by decide)]
      rfl
    unfold get_output_line_by_config
    rw [hstep, h, colour_line_empty_pattern]
    rfl
  · intro heq
    have hlen := congrArg List.length heq
    rw [List.length_append, interAfter_length] at hlen
    have h4 : ("\x1b[0m".data).length = 4 := rfl
    rw [h4] at hlen
    omega

/-- C10 witness: the default rule maps the line ab to reset a reset b reset
and the empty line to exactly the reset sequence. -/
theorem default_rule_not_identity_witness :
    (get_output_line_by_config (fun _ => empty_pattern_matches) "ab".data
        [ColourConfig.new] =
      some ("\x1b[0m".data ++ interAfter "\x1b[0m".data "ab".data) ∧
    "\x1b[0m".data ++ interAfter "\x1b[0m".data "ab".data ≠ "ab".data) ∧
    get_output_line_by_config (fun _ => empty_pattern_matches) "".data
        [ColourConfig.new] = some "\x1b[0m".data :=
  ⟨default_rule_not_identity (fun _ => empty_pattern_matches) rfl "ab".data, by decide⟩
